import Mathlib

/-!
Verification of the workspace path-resolution and lifecycle-orchestration
core of the `jw` CLI (a jujutsu workspace manager).

Modelling conventions:
* Absolute filesystem paths are modelled as their list of segments
  (`Path := List String`); the node `path` helpers correspond to list
  operations: `join parent child` is `parent ++ [child]` (or `++ parsePath child`
  when `child` may contain separators), `dirname` is `List.dropLast`,
  `basename` is `List.getLastD ""`, and the filesystem root `"/"` is `[]`.
* The filesystem (`existsSync` / `statSync(..).isDirectory()` / `readFileSync`)
  is a read-only oracle `FileSystem`; the CLI is a one-shot process, and the
  source only queries the filesystem through these three calls.
* `execCommand` (Bun.spawn) is modelled by a `Runner` oracle giving each spawned
  command's captured `{stdout, stderr, exitCode}`, plus an `Effect.exec` entry
  in the operation's effect trace.  Every filesystem mutation in the source is
  performed by spawning `mkdir`/`cp`/`rm`/`mv`, so the `exec` entries of the
  trace cover both external-tool invocations and filesystem mutations.
* `console.log` / `console.warn` become `Effect.log` / `Effect.warn`.
* Thrown exceptions become `Except JwError`; an operation returns its result
  together with the effect trace emitted up to the point of return.
-/

namespace Jw

/-- Absolute paths, as their segment lists (the filesystem root is `[]`). -/
abbrev Path := List String

/-- Render a segment path as the string the source would pass to a spawned
command (`"/" ++ segments joined by "/"`). -/
def renderPath (p : Path) : String :=
  "/" ++ String.intercalate "/" p

/-- Whitespace test of JS `String.prototype.trim`, for the whitespace
characters that occur in this development. -/
def isWsChar (c : Char) : Bool :=
  c = ' ' || c = '\t' || c = '\n' || c = '\r'

/-- JS `s.trim()` on the character list: strip whitespace from both ends. -/
def jsTrim (l : List Char) : List Char :=
  ((l.dropWhile isWsChar).reverse.dropWhile isWsChar).reverse

/-- JS `s.trim()`. -/
def trimString (s : String) : String :=
  String.mk (jsTrim s.toList)

/-- JS `s.split(sep)` for a single-character separator, on the character
list: every occurrence splits, adjacent separators yield empty pieces. -/
def splitOnChar (sep : Char) : List Char → List (List Char)
  | [] => [[]]
  | c :: cs =>
    match splitOnChar sep cs with
    | [] => [[]]
    | g :: gs => if c = sep then [] :: g :: gs else (c :: g) :: gs

/-- Parse a path string into its non-empty segments (inverse of `renderPath`
on well-formed absolute paths). -/
def parsePath (s : String) : Path :=
  ((splitOnChar '/' s.toList).filter (fun seg => !seg.isEmpty)).map String.mk

/-- Error taxonomy of `errors.ts` (one constructor per exception class), plus
`ioError` for the plain `Error` thrown during default-workspace resolution. -/
inductive JwError where
  | workspaceExists (name : String)
  | workspaceNotFound (name : String)
  | jujutsuCommand (operation : String) (stderr : String)
  | validation (msg : String)
  | cannotRemoveDefault
  | notJujutsuRepository
  | configAlreadyExists (path : String)
  | notDefaultWorkspace
  | ioError (msg : String)
deriving DecidableEq

/-- Read-only filesystem oracle: `exists?` is `existsSync`, `isDir` is
`statSync(..).isDirectory()`, `readFile` is `readFileSync(.., "utf-8")`. -/
structure FileSystem where
  exists? : Path → Bool
  isDir : Path → Bool
  readFile : Path → String

/-- Captured result of a spawned command (`execCommand`). -/
structure CmdResult where
  stdout : String
  stderr : String
  exitCode : Int
deriving DecidableEq

/-- Oracle giving the result of each spawned command: program, arguments,
optional working directory. -/
abbrev Runner := String → List String → Option Path → CmdResult

/-- Observable side effects of an operation, in order: spawned commands
(`execCommand`), `console.log`, and `console.warn`. -/
inductive Effect where
  | exec (cmd : String) (args : List String) (cwd : Option Path)
  | log (msg : String)
  | warn (msg : String)
deriving DecidableEq

/-- Whether an effect is a spawned command (external-tool invocation or
filesystem mutation). -/
def Effect.isExec : Effect → Bool
  | .exec _ _ _ => true
  | _ => false

/-- Number of spawned commands in a trace. -/
def countExecs (t : List Effect) : Nat :=
  (t.filter Effect.isExec).length

/-- Modelled from the spec: `constants.ts` is not under `src/` (it is only
imported there).  The reserved default workspace name. -/
def DEFAULT_WORKSPACE_NAME : String := "default"

/-- Modelled from the spec: `constants.ts` is not under `src/`.  The repository
marker entry name (a hidden directory at the repository root). -/
def JJ_DIR : String := ".jj"

/-- Modelled from the spec: `constants.ts` is not under `src/`.  The fixed
default suffix of the workspaces container directory (per the repository's
README and CHANGELOG, `"__ws"`). -/
def WORKSPACES_DIR_SUFFIX : String := "__ws"

/-- The `Config` interface from `config.ts`:
`{ copyFiles: string[]; postCreateCommands: string[]; workspacesDirSuffix?: string }`.
This is the value `loadConfig()` produces for each invocation (its
`parseConfig` coerces a non-string or empty-string `workspacesDirSuffix`
to `undefined`, i.e. `none`); the operations receive it as an argument. -/
structure Config where
  copyFiles : List String
  postCreateCommands : List String
  workspacesDirSuffix : Option String

/-- `normalizeWorkspaceName` from `utils.ts`: `name.replace(/\//g, "-")`,
i.e. each `/` character becomes `-`. -/
def normalizeWorkspaceName (name : String) : String :=
  String.mk (name.toList.map (fun c => if c = '/' then '-' else c))

/-- JS `line.indexOf(":")`, on the character list (`none` for `-1`). -/
def idxOfColon : List Char → Option Nat
  | [] => none
  | c :: cs => if c = ':' then some 0 else (idxOfColon cs).map (· + 1)

/-- Character-level body of the per-line parse in `parseJjWorkspaceList`:
`colonIndex > 0 ? line.substring(0, colonIndex) : null`. -/
def lineNameChars (l : List Char) : Option (List Char) :=
  match idxOfColon l with
  | some i => if 0 < i then some (l.take i) else none
  | none => none

/-- Per-line parse of `parseJjWorkspaceList` in `utils.ts`: the trimmed text
before the first `:` when that colon's index is positive, else dropped. -/
def parseLine (line : List Char) : Option String :=
  (lineNameChars line).map (fun cs => String.mk (jsTrim cs))

/-- `parseJjWorkspaceList` from `utils.ts`: `[]` when the trimmed output is
empty (JS `!output.trim()`), else split the trimmed output on newlines; the
source maps each line to a name-or-null and filters out the nulls, which is
`List.filterMap`. -/
def parseJjWorkspaceList (output : String) : List String :=
  if jsTrim output.toList = [] then []
  else (splitOnChar '\n' (jsTrim output.toList)).filterMap parseLine

/-- Whether a directory contains the repository marker entry
(`existsSync(join(dir, JJ_DIR))`). -/
def hasMarker (fs : FileSystem) (dir : Path) : Bool :=
  fs.exists? (dir ++ [JJ_DIR])

/-- Loop body of `getRepoRoot` in `utils.ts`, on the reversed segment list so
that `dirname` (`List.dropLast`) becomes the structural `List.tail`:
`while (currentDir !== "/") { if (existsSync(join(currentDir, JJ_DIR))) return
currentDir; currentDir = dirname(currentDir); } throw NotJujutsuRepository`. -/
def getRepoRootRev (fs : FileSystem) : List String → Except JwError Path
  | [] => .error .notJujutsuRepository
  | s :: rest =>
    if hasMarker fs (s :: rest).reverse then .ok (s :: rest).reverse
    else getRepoRootRev fs rest

/-- `getRepoRoot` from `utils.ts`, with the ambient `process.cwd()` made an
explicit parameter. -/
def getRepoRoot (fs : FileSystem) (cwd : Path) : Except JwError Path :=
  getRepoRootRev fs cwd.reverse

/-- Reversed-representation helper for `ancestors`. -/
def ancestorsRev : List String → List (List String)
  | [] => []
  | s :: rest => (s :: rest) :: ancestorsRev rest

/-- The candidate directories `getRepoRoot` walks: the start directory and its
proper ancestors, nearest first, excluding the filesystem root `[]`. -/
def ancestors (cwd : Path) : List Path :=
  (ancestorsRev cwd.reverse).map List.reverse

/-- `getDefaultWorkspacePath` from `utils.ts`: locate the root, require the
`.jj/repo` entry, return the root if that entry is a directory, otherwise
treat the entry's trimmed text content as a path and strip its last two
segments (`dirname(dirname(content))`). -/
def getDefaultWorkspacePath (fs : FileSystem) (cwd : Path) : Except JwError Path := do
  let currentWorkspaceRoot ← getRepoRoot fs cwd
  let repoPath := currentWorkspaceRoot ++ [JJ_DIR, "repo"]
  if fs.exists? repoPath = false then
    .error (.ioError "Could not find .jj/repo")
  else if fs.isDir repoPath then
    .ok currentWorkspaceRoot
  else
    .ok ((parsePath (trimString (fs.readFile repoPath))).dropLast.dropLast)

/-- `getWorkspacesDirName` from `utils.ts`: `repoName + (suffix ?? WORKSPACES_DIR_SUFFIX)`;
`??` fires only on `undefined` (`none`), so an explicit empty string is kept. -/
def getWorkspacesDirName (repoName : String) (suffix : Option String) : String :=
  repoName ++ suffix.getD WORKSPACES_DIR_SUFFIX

/-- `getWorkspacesDir` from `utils.ts`: the sibling of the default workspace
named `getWorkspacesDirName (basename defaultPath) configSuffix`. -/
def getWorkspacesDir (fs : FileSystem) (cwd : Path) (configSuffix : Option String) :
    Except JwError Path := do
  let defaultPath ← getDefaultWorkspacePath fs cwd
  let parentDir := defaultPath.dropLast
  let repoName := defaultPath.getLastD ""
  .ok (parentDir ++ [getWorkspacesDirName repoName configSuffix])

/-- `getWorkspacePath` from `utils.ts`: `join(getWorkspacesDir(configSuffix), name)`. -/
def getWorkspacePath (fs : FileSystem) (cwd : Path) (name : String)
    (configSuffix : Option String) : Except JwError Path := do
  let dir ← getWorkspacesDir fs cwd configSuffix
  .ok (dir ++ [name])

/-- `copyFileOrDir` from `utils.ts`: warn and skip a missing source, `cp -r`
for a directory, `cp` for a file.  It never fails, so it returns its trace. -/
def copyFileOrDir (fs : FileSystem) (src dest : Path) : List Effect :=
  if fs.exists? src = false then
    [.warn ("Source does not exist: " ++ renderPath src)]
  else if fs.isDir src then
    [.exec "cp" ["-r", renderPath src, renderPath dest] none]
  else
    [.exec "cp" [renderPath src, renderPath dest] none]

/-- `removeDir` from `utils.ts`: `rm -rf` when the path exists, else no-op. -/
def removeDir (fs : FileSystem) (path : Path) : List Effect :=
  if fs.exists? path then [.exec "rm" ["-rf", renderPath path] none] else []

/-- `getJjWorkspaceList` from `utils.ts`: run `jj workspace list`, fail with
`JujutsuCommandError` on non-zero exit, else parse the names. -/
def getJjWorkspaceList (runner : Runner) : Except JwError (List String) × List Effect :=
  let r := runner "jj" ["workspace", "list"] none
  let eff := [Effect.exec "jj" ["workspace", "list"] none]
  if r.exitCode ≠ 0 then (.error (.jujutsuCommand "list workspaces" r.stderr), eff)
  else (.ok (parseJjWorkspaceList r.stdout), eff)

/-- Body of the copy-file loop shared by `newWorkspace` and `copyToWorkspace`
in `workspace.ts` (`indent` is the log prefix, which differs between the two). -/
def copyConfigFile (fs : FileSystem) (indent : String) (repoRoot workspacePath : Path)
    (file : String) : List Effect :=
  Effect.log (indent ++ "Copying \"" ++ file ++ "\"...") ::
    copyFileOrDir fs (repoRoot ++ parsePath file) workspacePath

/-- Body of the post-create-command loop in `newWorkspace`: split the command
string on spaces, run it in the new workspace, and on non-zero exit log two
warnings and continue. -/
def runPostCreateCommand (runner : Runner) (workspacePath : Path)
    (command : String) : List Effect :=
  let parts := (splitOnChar ' ' command.toList).map String.mk
  let r := runner (parts.headD "") parts.tail (some workspacePath)
  [Effect.log ("Running command: " ++ command),
   Effect.exec (parts.headD "") parts.tail (some workspacePath)] ++
    (if r.exitCode ≠ 0 then [Effect.warn ("Command failed: " ++ command), Effect.warn r.stderr]
     else [])

/-- `newWorkspace` from `workspace.ts`.  The configuration loaded by
`loadConfig()` after the `jj workspace add` call is passed as the `config`
argument.  Note the operation derives `workspacePath` and `workspacesDir`
with no suffix argument (`undefined` in the source). -/
def newWorkspace (fs : FileSystem) (runner : Runner) (cwd : Path) (config : Config)
    (name : String) (revision : Option String) : Except JwError Unit × List Effect :=
  let normalizedName := normalizeWorkspaceName name
  match getWorkspacePath fs cwd normalizedName none with
  | .error e => (.error e, [])
  | .ok workspacePath =>
    if fs.exists? workspacePath then (.error (.workspaceExists normalizedName), [])
    else
      match getWorkspacesDir fs cwd none with
      | .error e => (.error e, [])
      | .ok workspacesDir =>
        let mkdirEffs := if fs.exists? workspacesDir = false then
            [Effect.exec "mkdir" ["-p", renderPath workspacesDir] none] else []
        let jjArgs := ["workspace", "add", "--name", normalizedName] ++
          (match revision with
           | some r => if r = "" then [] else ["--revision", r]
           | none => []) ++ [renderPath workspacePath]
        let r := runner "jj" jjArgs none
        let pre := mkdirEffs ++
          [Effect.log ("Creating workspace \"" ++ normalizedName ++ "\"..."),
           Effect.exec "jj" jjArgs none]
        if r.exitCode ≠ 0 then
          (.error (.jujutsuCommand "create workspace" r.stderr), pre)
        else
          match getRepoRoot fs cwd with
          | .error e => (.error e, pre)
          | .ok repoRoot =>
            (.ok (), pre ++
              config.copyFiles.flatMap (copyConfigFile fs "" repoRoot workspacePath) ++
              config.postCreateCommands.flatMap (runPostCreateCommand runner workspacePath) ++
              [Effect.log ("Created workspace \"" ++ normalizedName ++ "\": " ++
                renderPath workspacePath)])

/-- `goWorkspace` from `workspace.ts`: print the default root for the raw
default name, else print the derived path after an existence check. -/
def goWorkspace (fs : FileSystem) (cwd : Path) (name : String) :
    Except JwError Unit × List Effect :=
  if name = DEFAULT_WORKSPACE_NAME then
    match getDefaultWorkspacePath fs cwd with
    | .error e => (.error e, [])
    | .ok p => (.ok (), [.log (renderPath p)])
  else
    let normalizedName := normalizeWorkspaceName name
    match getWorkspacePath fs cwd normalizedName none with
    | .error e => (.error e, [])
    | .ok workspacePath =>
      if fs.exists? workspacePath = false then
        (.error (.workspaceNotFound normalizedName), [])
      else (.ok (), [.log (renderPath workspacePath)])

/-- `removeWorkspace` from `workspace.ts`: guard the default name first, then
`jj workspace forget` (non-zero exit only warns), then delete the directory
if present, then report success. -/
def removeWorkspace (fs : FileSystem) (runner : Runner) (cwd : Path)
    (name : String) : Except JwError Unit × List Effect :=
  let normalizedName := normalizeWorkspaceName name
  if normalizedName = DEFAULT_WORKSPACE_NAME then
    (.error .cannotRemoveDefault, [])
  else
    match getWorkspacePath fs cwd normalizedName none with
    | .error e => (.error e, [])
    | .ok workspacePath =>
      let r := runner "jj" ["workspace", "forget", normalizedName] none
      (.ok (),
        [Effect.log ("Removing workspace \"" ++ normalizedName ++ "\"..."),
         Effect.exec "jj" ["workspace", "forget", normalizedName] none] ++
        (if r.exitCode ≠ 0 then
          [Effect.warn ("Failed to run jj workspace forget: " ++ r.stderr)] else []) ++
        (if fs.exists? workspacePath then removeDir fs workspacePath else []) ++
        [Effect.log ("Removed workspace \"" ++ normalizedName ++ "\"")])

/-- `copyToWorkspace` from `workspace.ts`. -/
def copyToWorkspace (fs : FileSystem) (cwd : Path) (config : Config)
    (name : String) : Except JwError Unit × List Effect :=
  let normalizedName := normalizeWorkspaceName name
  match getWorkspacePath fs cwd normalizedName none with
  | .error e => (.error e, [])
  | .ok workspacePath =>
    if fs.exists? workspacePath = false then
      (.error (.workspaceNotFound normalizedName), [])
    else
      match getRepoRoot fs cwd with
      | .error e => (.error e, [])
      | .ok repoRoot =>
        (.ok (),
          Effect.log ("Copying files to workspace \"" ++ normalizedName ++ "\"...") ::
          config.copyFiles.flatMap (copyConfigFile fs "  " repoRoot workspacePath) ++
          [Effect.log "Copy completed"])

/-- `renameWorkspace` from `workspace.ts`: existence checks, then
`jj workspace rename` run in the old directory (non-zero exit is fatal),
and only then `mv` the directory. -/
def renameWorkspace (fs : FileSystem) (runner : Runner) (cwd : Path)
    (oldName newName : String) : Except JwError Unit × List Effect :=
  let normalizedOldName := normalizeWorkspaceName oldName
  let normalizedNewName := normalizeWorkspaceName newName
  match getWorkspacePath fs cwd normalizedOldName none with
  | .error e => (.error e, [])
  | .ok oldPath =>
    match getWorkspacePath fs cwd normalizedNewName none with
    | .error e => (.error e, [])
    | .ok newPath =>
      if fs.exists? oldPath = false then
        (.error (.workspaceNotFound normalizedOldName), [])
      else if fs.exists? newPath then
        (.error (.workspaceExists normalizedNewName), [])
      else
        let r := runner "jj" ["workspace", "rename", normalizedNewName] (some oldPath)
        let pre := [Effect.log ("Renaming workspace \"" ++ normalizedOldName ++
            "\" to \"" ++ normalizedNewName ++ "\"..."),
          Effect.exec "jj" ["workspace", "rename", normalizedNewName] (some oldPath)]
        if r.exitCode ≠ 0 then
          (.error (.jujutsuCommand "rename workspace" r.stderr), pre)
        else
          (.ok (), pre ++
            [Effect.exec "mv" [renderPath oldPath, renderPath newPath] none,
             Effect.log ("Renamed workspace \"" ++ normalizedOldName ++ "\" to \"" ++
               normalizedNewName ++ "\"")])

/-- Loop of `cleanWorkspaces` in `workspace.ts`: for each listed workspace
other than the default whose directory is missing, run `jj workspace forget`;
collect the names that were forgotten successfully, warn (and continue) on
the ones that failed. -/
def cleanLoop (fs : FileSystem) (runner : Runner) (cwd : Path) :
    List String → Except JwError (List String) × List Effect
  | [] => (.ok [], [])
  | ws :: rest =>
    if ws = DEFAULT_WORKSPACE_NAME then cleanLoop fs runner cwd rest
    else
      match getWorkspacePath fs cwd ws none with
      | .error e => (.error e, [])
      | .ok path =>
        if fs.exists? path = false then
          let r := runner "jj" ["workspace", "forget", ws] none
          let eff := Effect.exec "jj" ["workspace", "forget", ws] none
          if r.exitCode = 0 then
            match cleanLoop fs runner cwd rest with
            | (res, effs) => (res.map (ws :: ·), eff :: effs)
          else
            match cleanLoop fs runner cwd rest with
            | (res, effs) =>
              (res, eff :: Effect.warn ("Failed to forget workspace \"" ++ ws ++
                "\": " ++ trimString r.stderr) :: effs)
        else cleanLoop fs runner cwd rest

/-- `cleanWorkspaces` from `workspace.ts`. -/
def cleanWorkspaces (fs : FileSystem) (runner : Runner) (cwd : Path) :
    Except JwError Unit × List Effect :=
  match getJjWorkspaceList runner with
  | (.error e, effs) => (.error e, effs)
  | (.ok workspaces, effs) =>
    match cleanLoop fs runner cwd workspaces with
    | (.error e, effs2) => (.error e, effs ++ effs2)
    | (.ok forgottenWorkspaces, effs2) =>
      if forgottenWorkspaces = [] then
        (.ok (), effs ++ effs2 ++ [Effect.log "No stale workspaces found"])
      else
        (.ok (), effs ++ effs2 ++ [Effect.log "Forgotten workspaces:"] ++
          forgottenWorkspaces.map (fun ws => Effect.log ("  " ++ ws)))

/-- Whether `cleanWorkspaces` treats a listed workspace as stale: not the
default name, and its derived directory (under container `c`) is missing. -/
def isStale (fs : FileSystem) (c : Path) (ws : String) : Bool :=
  !(ws == DEFAULT_WORKSPACE_NAME) && !(fs.exists? (c ++ [ws]))

/-- Spec-side twin of `lineNameChars`, in the words of the spec: the text
before the first colon, included when it is non-empty and a colon exists. -/
def specNameChars (l : List Char) : Option (List Char) :=
  let pre := l.takeWhile (fun c => c != ':')
  if 0 < pre.length ∧ pre.length < l.length then some pre else none

/-- Spec-side twin of `parseLine`. -/
def specLineName (line : List Char) : Option String :=
  (specNameChars line).map (fun cs => String.mk (jsTrim cs))

/-- Spec-side twin of `parseJjWorkspaceList`: one entry per line whose first
colon sits after at least one character, carrying the trimmed prefix. -/
def specParseListing (output : String) : List String :=
  if jsTrim output.toList = [] then []
  else (splitOnChar '\n' (jsTrim output.toList)).filterMap specLineName

/-! Concrete scenario states used by closed theorems and witnesses. -/

/-- Repository `/home/user/my-repo` whose `.jj/repo` entry is a directory
(the start directory is the default workspace); no other entry exists. -/
def fsScenario : FileSystem where
  exists? := fun p =>
    p == ["home", "user", "my-repo", ".jj"] ||
    p == ["home", "user", "my-repo", ".jj", "repo"]
  isDir := fun p => p == ["home", "user", "my-repo", ".jj", "repo"]
  readFile := fun _ => ""

/-- Same repository, with the derived directory of workspace `feature`
already present on disk. -/
def fsExisting : FileSystem where
  exists? := fun p =>
    p == ["home", "user", "my-repo", ".jj"] ||
    p == ["home", "user", "my-repo", ".jj", "repo"] ||
    p == ["home", "user", "my-repo__ws", "feature"]
  isDir := fun p => p == ["home", "user", "my-repo", ".jj", "repo"]
  readFile := fun _ => ""

/-- Same repository, with the derived directory of workspace `old` present
and the one of workspace `new` absent. -/
def fsRename : FileSystem where
  exists? := fun p =>
    p == ["home", "user", "my-repo", ".jj"] ||
    p == ["home", "user", "my-repo", ".jj", "repo"] ||
    p == ["home", "user", "my-repo__ws", "old"]
  isDir := fun p => p == ["home", "user", "my-repo", ".jj", "repo"]
  readFile := fun _ => ""

/-- Runner on which every spawned command succeeds silently. -/
def runnerZero : Runner := fun _ _ _ => ⟨"", "", 0⟩

/-- Runner on which `jj workspace forget feature` fails with stderr `boom`
and everything else succeeds. -/
def runnerForgetFails : Runner := fun _ args _ =>
  if args == ["workspace", "forget", "feature"] then ⟨"", "boom", 1⟩ else ⟨"", "", 0⟩

/-- Runner on which `jj workspace rename new` fails and everything else
succeeds. -/
def runnerRenameFails : Runner := fun _ args _ =>
  if args == ["workspace", "rename", "new"] then ⟨"", "rename failed", 1⟩ else ⟨"", "", 0⟩

/-- Runner on which `jj workspace list` reports three workspaces and
`jj workspace forget fail` exits non-zero. -/
def runnerClean : Runner := fun _ args _ =>
  if args == ["workspace", "list"] then ⟨"default: a b\ngone: c d\nfail: e f", "", 0⟩
  else if args == ["workspace", "forget", "fail"] then ⟨"", "boom\n", 1⟩
  else ⟨"", "", 0⟩

/-- Configuration whose workspaces-directory suffix override is `-ws`. -/
def configWithSuffix : Config := ⟨[], [], some "-ws"⟩

/-! Claim theorems. -/

/-- C9: `normalizeWorkspaceName` is total (it is a plain Lean function), its
result never contains `/`, it is idempotent, and it maps
`"feature/auth/login"` to `"feature-auth-login"`, `""` to `""` and `"///"`
to `"---"`. -/
theorem normalizeWorkspaceName_spec :
    (∀ s : String,
      ((normalizeWorkspaceName s).toList.all (fun c => c != '/')) = true ∧
      normalizeWorkspaceName (normalizeWorkspaceName s) = normalizeWorkspaceName s) ∧
    normalizeWorkspaceName "feature/auth/login" = "feature-auth-login" ∧
    normalizeWorkspaceName "" = "" ∧
    normalizeWorkspaceName "///" = "---" := by
  refine ⟨fun s => ⟨?_, ?_⟩, by decide, by decide, by decide⟩
  · show ((s.toList.map fun c => if c = '/' then '-' else c).all (fun c => c != '/')) = true
    induction s.toList with
    | nil => rfl
    | cons c cs ih =>
      simp only [List.map_cons, List.all_cons, ih, Bool.and_true]
      by_cases hc : c = '/' <;> simp [hc]
  · show String.mk ((s.toList.map fun c => if c = '/' then '-' else c).map
        fun c => if c = '/' then '-' else c) =
      String.mk (s.toList.map fun c => if c = '/' then '-' else c)
    rw [List.map_map]
    congr 1
    apply List.map_congr_left
    intro c _
    by_cases hc : c = '/' <;> simp [hc, Function.comp]

/-- C4: `getWorkspacesDirName` appends the fixed default suffix when no
suffix is passed, and appends exactly the passed suffix otherwise — including
the empty string, which is honored as a real override. -/
theorem getWorkspacesDirName_spec :
    ∀ repoName : String,
      getWorkspacesDirName repoName none = repoName ++ WORKSPACES_DIR_SUFFIX ∧
      (∀ s : String, getWorkspacesDirName repoName (some s) = repoName ++ s) ∧
      getWorkspacesDirName repoName (some "") = repoName := by
  intro r
  refine ⟨rfl, fun s => rfl, ?_⟩
  show r ++ "" = r
  simp

/-- C2: for every name whose normalization equals the reserved default name,
`removeWorkspace` fails with `CannotRemoveDefault` with an empty effect
trace — so before any external-tool invocation or filesystem mutation — for
every filesystem state and runner. -/
theorem removeWorkspace_default_guard (fs : FileSystem) (runner : Runner)
    (cwd : Path) (name : String)
    (h : normalizeWorkspaceName name = DEFAULT_WORKSPACE_NAME) :
    removeWorkspace fs runner cwd name = (.error .cannotRemoveDefault, []) := by
  simp [removeWorkspace, h]

/-- C2 witness: `removeWorkspace` on the literal name `default`, on a
concrete filesystem state. -/
theorem removeWorkspace_default_guard_witness :
    removeWorkspace fsScenario runnerZero ["home", "user", "my-repo"] "default" =
      (.error .cannotRemoveDefault, []) :=
  removeWorkspace_default_guard fsScenario runnerZero ["home", "user", "my-repo"]
    "default" (by decide)

/-- C8: when the derived workspace path already exists, `newWorkspace` fails
with `AlreadyExists` and an empty effect trace — no external-tool invocation
and no filesystem mutation. -/
theorem newWorkspace_already_exists_guard (fs : FileSystem) (runner : Runner)
    (cwd : Path) (config : Config) (name : String) (revision : Option String)
    (wp : Path)
    (hwp : getWorkspacePath fs cwd (normalizeWorkspaceName name) none = .ok wp)
    (hex : fs.exists? wp = true) :
    newWorkspace fs runner cwd config name revision =
      (.error (.workspaceExists (normalizeWorkspaceName name)), []) := by
  simp [newWorkspace, hwp, hex]

/-- C8 witness: creating `feature` while its directory pre-exists. -/
theorem newWorkspace_already_exists_guard_witness :
    newWorkspace fsExisting runnerZero ["home", "user", "my-repo"] ⟨[], [], none⟩
      "feature" none = (.error (.workspaceExists "feature"), []) :=
  newWorkspace_already_exists_guard fsExisting runnerZero ["home", "user", "my-repo"]
    ⟨[], [], none⟩ "feature" none ["home", "user", "my-repo__ws", "feature"]
    (by rfl) (by rfl)

/-- C5: under a located root, `getDefaultWorkspacePath` returns the root when
the `.jj/repo` entry is a directory, returns the entry's trimmed text content
stripped of its last two path segments when it is a regular file, and fails
with a generic error when the entry is missing. -/
theorem getDefaultWorkspacePath_spec (fs : FileSystem) (cwd root : Path)
    (hroot : getRepoRoot fs cwd = .ok root) :
    (fs.exists? (root ++ [JJ_DIR, "repo"]) = true →
      fs.isDir (root ++ [JJ_DIR, "repo"]) = true →
      getDefaultWorkspacePath fs cwd = .ok root) ∧
    (fs.exists? (root ++ [JJ_DIR, "repo"]) = true →
      fs.isDir (root ++ [JJ_DIR, "repo"]) = false →
      getDefaultWorkspacePath fs cwd =
        .ok ((parsePath (trimString (fs.readFile (root ++ [JJ_DIR, "repo"])))).dropLast.dropLast)) ∧
    (fs.exists? (root ++ [JJ_DIR, "repo"]) = false →
      getDefaultWorkspacePath fs cwd = .error (.ioError "Could not find .jj/repo")) := by
  refine ⟨fun he hd => ?_, fun he hd => ?_, fun he => ?_⟩ <;>
    simp [getDefaultWorkspacePath, hroot, bind, Except.bind, *]

/-- C5 witness: on a concrete state whose marker entry is a directory, the
located root is returned. -/
theorem getDefaultWorkspacePath_spec_witness :
    getDefaultWorkspacePath fsScenario ["home", "user", "my-repo"] =
      .ok ["home", "user", "my-repo"] :=
  (getDefaultWorkspacePath_spec fsScenario ["home", "user", "my-repo"]
    ["home", "user", "my-repo"] (by rfl)).1 (by rfl) (by rfl)

/-- C1: the lifecycle operations derive the workspace path with no suffix
argument, so the loaded configuration's `workspacesDirSuffix` override is
ignored.  On a repository at `/home/user/my-repo` with the loaded
configuration overriding the suffix to `-ws`, `newWorkspace "feature"`
checks, creates and reports `/home/user/my-repo__ws/feature` (fixed default
suffix), while the container directory computed with the loaded config's
suffix joined with the normalized name is `/home/user/my-repo-ws/feature`. -/
theorem suffix_override_ignored_on_create :
    newWorkspace fsScenario runnerZero ["home", "user", "my-repo"] configWithSuffix
        "feature" none =
      (.ok (),
        [Effect.exec "mkdir" ["-p", "/home/user/my-repo__ws"] none,
         Effect.log "Creating workspace \"feature\"...",
         Effect.exec "jj"
           ["workspace", "add", "--name", "feature", "/home/user/my-repo__ws/feature"] none,
         Effect.log "Created workspace \"feature\": /home/user/my-repo__ws/feature"]) ∧
    getWorkspacePath fsScenario ["home", "user", "my-repo"] "feature"
        configWithSuffix.workspacesDirSuffix =
      .ok ["home", "user", "my-repo-ws", "feature"] ∧
    ((["home", "user", "my-repo-ws", "feature"] : Path) ==
        ["home", "user", "my-repo__ws", "feature"]) = false := by
  refine ⟨by rfl, by rfl, by decide⟩

theorem idxOfColon_none_takeWhile {l : List Char} (h : idxOfColon l = none) :
    l.takeWhile (fun c => c != ':') = l := by
  induction l with
  | nil => rfl
  | cons c cs ih =>
    by_cases hc : c = ':'
    · simp [idxOfColon, hc] at h
    · simp only [idxOfColon, if_neg hc, Option.map_eq_none'] at h
      simp [List.takeWhile_cons, hc, ih h]

theorem idxOfColon_some_spec {l : List Char} {i : Nat} (h : idxOfColon l = some i) :
    l.takeWhile (fun c => c != ':') = l.take i ∧ i < l.length := by
  induction l generalizing i with
  | nil => simp [idxOfColon] at h
  | cons c cs ih =>
    by_cases hc : c = ':'
    · simp only [idxOfColon, if_pos hc, Option.some.injEq] at h
      subst h
      simp [List.takeWhile_cons, hc]
    · simp only [idxOfColon, if_neg hc] at h
      cases hcs : idxOfColon cs with
      | none => rw [hcs] at h; simp at h
      | some j =>
        rw [hcs] at h
        simp only [Option.map_some', Option.some.injEq] at h
        subst h
        obtain ⟨h1, h2⟩ := ih hcs
        refine ⟨?_, by simpa using Nat.succ_lt_succ h2⟩
        simp [List.takeWhile_cons, hc, h1, List.take_succ_cons]

theorem lineNameChars_eq_specNameChars (l : List Char) :
    lineNameChars l = specNameChars l := by
  cases h : idxOfColon l with
  | none =>
    have ht := idxOfColon_none_takeWhile h
    simp [lineNameChars, specNameChars, h, ht]
  | some i =>
    obtain ⟨h1, h2⟩ := idxOfColon_some_spec h
    by_cases hi : 0 < i
    · have hlen : (l.take i).length = i := by
        simp [List.length_take, Nat.min_eq_left (Nat.le_of_lt h2)]
      simp [lineNameChars, specNameChars, h, hi, h1, hlen, h2]
    · have hz : i = 0 := Nat.eq_zero_of_not_pos hi
      subst hz
      simp [lineNameChars, specNameChars, h, h1]

/-- C3 counterexample: on the listing `"a: 1\n : x"`, the second line has its
first colon at index 1 (which is greater than zero) but only whitespace
before it, so the parsed result contains the empty name. -/
theorem parseJjWorkspaceList_empty_name_cex :
    parseJjWorkspaceList "a: 1\n : x" = ["a", ""] ∧
    "" ∈ parseJjWorkspaceList "a: 1\n : x" := by
  have h : parseJjWorkspaceList "a: 1\n : x" = ["a", ""] := by rfl
  exact ⟨h, by rw [h]; simp⟩

/-- C3 (amended): `parseJjWorkspaceList` returns exactly one entry per line
whose first colon is at a position greater than zero, the entry's name being
the trimmed text before that colon (which may be empty when that text is all
whitespace); lines with no colon or with the colon at position zero are
dropped. -/
theorem parseJjWorkspaceList_spec (output : String) :
    parseJjWorkspaceList output = specParseListing output := by
  have hfun : parseLine = specLineName := by
    funext line
    simp [parseLine, specLineName, lineNameChars_eq_specNameChars]
  simp [parseJjWorkspaceList, specParseListing, hfun]

theorem find?_map_reverse (fs : FileSystem) (L : List (List String)) :
    (L.map List.reverse).find? (hasMarker fs) =
      (L.find? (fun a => hasMarker fs a.reverse)).map List.reverse := by
  induction L with
  | nil => rfl
  | cons a L ih =>
    by_cases h : hasMarker fs a.reverse = true <;>
      simp [List.find?_cons, h, ih]

theorem getRepoRootRev_eq_find (fs : FileSystem) (l : List String) :
    getRepoRootRev fs l =
      (match (ancestorsRev l).find? (fun a => hasMarker fs a.reverse) with
       | some a => .ok a.reverse
       | none => .error .notJujutsuRepository) := by
  induction l with
  | nil => rfl
  | cons s rest ih =>
    simp only [getRepoRootRev, ancestorsRev, List.find?_cons]
    cases h : hasMarker fs (s :: rest).reverse with
    | true => simp [h]
    | false => simp [h, ih]

/-- C6: `getRepoRoot` returns the first element of `ancestors cwd` — the
start directory and its proper ancestors, nearest first, excluding the
filesystem root — that contains the repository marker, and fails with
`NotARepository` exactly when no such ancestor contains the marker. -/
theorem getRepoRoot_spec (fs : FileSystem) (cwd : Path) :
    getRepoRoot fs cwd =
      (match (ancestors cwd).find? (hasMarker fs) with
       | some r => .ok r
       | none => .error .notJujutsuRepository) ∧
    ((getRepoRoot fs cwd = .error .notJujutsuRepository) ↔
      (ancestors cwd).all (fun a => !(hasMarker fs a)) = true) := by
  have hmain : getRepoRoot fs cwd =
      (match (ancestors cwd).find? (hasMarker fs) with
       | some r => .ok r
       | none => .error .notJujutsuRepository) := by
    rw [getRepoRoot, getRepoRootRev_eq_find, ancestors, find?_map_reverse]
    cases (ancestorsRev cwd.reverse).find? (fun a => hasMarker fs a.reverse) <;> rfl
  refine ⟨hmain, ?_⟩
  rw [hmain]
  cases hf : (ancestors cwd).find? (hasMarker fs) with
  | some r =>
    simp only
    constructor
    · intro h; simp at h
    · intro hall
      have hp := List.find?_some hf
      have hm := List.mem_of_find?_eq_some hf
      rw [List.all_eq_true] at hall
      have := hall r hm
      simp [hp] at this
  | none =>
    simp only
    constructor
    · intro _
      rw [List.all_eq_true]
      intro a ha
      have := List.find?_eq_none.mp hf a ha
      simpa using this
    · intro _; trivial

/-- C10: when the external `jj workspace rename` exits non-zero,
`renameWorkspace` fails with `ExternalToolError` and its trace contains no
`mv` — the directory move was never attempted, the workspace still resides at
the old path and the new path remains absent; when the external rename
succeeds, the `mv` of the directory follows the external call in the trace. -/
theorem renameWorkspace_atomic (fs : FileSystem) (runner : Runner) (cwd : Path)
    (oldName newName : String) (oldPath newPath : Path)
    (hold : getWorkspacePath fs cwd (normalizeWorkspaceName oldName) none = .ok oldPath)
    (hnew : getWorkspacePath fs cwd (normalizeWorkspaceName newName) none = .ok newPath)
    (hex : fs.exists? oldPath = true)
    (hnex : fs.exists? newPath = false) :
    ((runner "jj" ["workspace", "rename", normalizeWorkspaceName newName]
        (some oldPath)).exitCode ≠ 0 →
      renameWorkspace fs runner cwd oldName newName =
        (.error (.jujutsuCommand "rename workspace"
            (runner "jj" ["workspace", "rename", normalizeWorkspaceName newName]
              (some oldPath)).stderr),
          [Effect.log ("Renaming workspace \"" ++ normalizeWorkspaceName oldName ++
             "\" to \"" ++ normalizeWorkspaceName newName ++ "\"..."),
           Effect.exec "jj" ["workspace", "rename", normalizeWorkspaceName newName]
             (some oldPath)])) ∧
    ((runner "jj" ["workspace", "rename", normalizeWorkspaceName newName]
        (some oldPath)).exitCode = 0 →
      renameWorkspace fs runner cwd oldName newName =
        (.ok (),
          [Effect.log ("Renaming workspace \"" ++ normalizeWorkspaceName oldName ++
             "\" to \"" ++ normalizeWorkspaceName newName ++ "\"..."),
           Effect.exec "jj" ["workspace", "rename", normalizeWorkspaceName newName]
             (some oldPath),
           Effect.exec "mv" [renderPath oldPath, renderPath newPath] none,
           Effect.log ("Renamed workspace \"" ++ normalizeWorkspaceName oldName ++
             "\" to \"" ++ normalizeWorkspaceName newName ++ "\"")])) := by
  constructor
  · intro hfail
    simp [renameWorkspace, hold, hnew, hex, hnex, hfail]
  · intro hok
    simp [renameWorkspace, hold, hnew, hex, hnex, hok]

/-- C10 witness: renaming `old` to `new` on a concrete state, once with a
runner on which the external rename fails (no `mv` in the trace) and once
with a runner on which it succeeds (the `mv` follows it). -/
theorem renameWorkspace_atomic_witness :
    renameWorkspace fsRename runnerRenameFails ["home", "user", "my-repo"] "old" "new" =
      (.error (.jujutsuCommand "rename workspace" "rename failed"),
        [Effect.log "Renaming workspace \"old\" to \"new\"...",
         Effect.exec "jj" ["workspace", "rename", "new"]
           (some ["home", "user", "my-repo__ws", "old"])]) ∧
    renameWorkspace fsRename runnerZero ["home", "user", "my-repo"] "old" "new" =
      (.ok (),
        [Effect.log "Renaming workspace \"old\" to \"new\"...",
         Effect.exec "jj" ["workspace", "rename", "new"]
           (some ["home", "user", "my-repo__ws", "old"]),
         Effect.exec "mv" ["/home/user/my-repo__ws/old", "/home/user/my-repo__ws/new"] none,
         Effect.log "Renamed workspace \"old\" to \"new\""]) :=
  ⟨(renameWorkspace_atomic fsRename runnerRenameFails ["home", "user", "my-repo"]
      "old" "new" ["home", "user", "my-repo__ws", "old"]
      ["home", "user", "my-repo__ws", "new"] (by rfl) (by rfl) (by rfl) (by rfl)).1
      (by decide),
   (renameWorkspace_atomic fsRename runnerZero ["home", "user", "my-repo"]
      "old" "new" ["home", "user", "my-repo__ws", "old"]
      ["home", "user", "my-repo__ws", "new"] (by rfl) (by rfl) (by rfl) (by rfl)).2
      (by decide)⟩

theorem countExecs_append (a b : List Effect) :
    countExecs (a ++ b) = countExecs a + countExecs b := by
  simp [countExecs, List.filter_append]

theorem countExecs_cons_exec (cmd : String) (args : List String) (cwd : Option Path)
    (t : List Effect) :
    countExecs (Effect.exec cmd args cwd :: t) = countExecs t + 1 := by
  simp [countExecs, List.filter_cons, Effect.isExec]

theorem countExecs_cons_log (msg : String) (t : List Effect) :
    countExecs (Effect.log msg :: t) = countExecs t := by
  simp [countExecs, List.filter_cons, Effect.isExec]

theorem countExecs_cons_warn (msg : String) (t : List Effect) :
    countExecs (Effect.warn msg :: t) = countExecs t := by
  simp [countExecs, List.filter_cons, Effect.isExec]

theorem countExecs_nil : countExecs [] = 0 := rfl

theorem countExecs_run_post_create (runner : Runner) (wp : Path) (command : String) :
    countExecs (runPostCreateCommand runner wp command) = 1 := by
  simp only [runPostCreateCommand]
  split <;>
    simp [countExecs, List.filter_append, List.filter_cons, Effect.isExec]

theorem countExecs_indent_logs (l : List String) :
    countExecs (l.map (fun ws => Effect.log ("  " ++ ws))) = 0 := by
  induction l with
  | nil => rfl
  | cons a l ih => simpa [countExecs_cons_log] using ih

theorem getWorkspacePath_from_dir {fs : FileSystem} {cwd : Path} {c : Path}
    (hc : getWorkspacesDir fs cwd none = .ok c) (name : String) :
    getWorkspacePath fs cwd name none = .ok (c ++ [name]) := by
  simp [getWorkspacePath, hc, bind, Except.bind]

theorem cleanLoop_spec (fs : FileSystem) (runner : Runner) (cwd : Path) (c : Path)
    (hc : getWorkspacesDir fs cwd none = .ok c) (names : List String) :
    ∃ forgotten effs,
      cleanLoop fs runner cwd names = (.ok forgotten, effs) ∧
      countExecs effs = (names.filter (isStale fs c)).length := by
  induction names with
  | nil => exact ⟨[], [], rfl, rfl⟩
  | cons ws rest ih =>
    obtain ⟨f, e, he, hcnt⟩ := ih
    have hwp := getWorkspacePath_from_dir hc ws
    by_cases hd : ws = DEFAULT_WORKSPACE_NAME
    · refine ⟨f, e, ?_, ?_⟩
      · simp [cleanLoop, hd, he]
      · have hs : isStale fs c ws = false := by simp [isStale, hd]
        simp [List.filter_cons, hs, hcnt]
    · by_cases hex : fs.exists? (c ++ [ws]) = true
      · refine ⟨f, e, ?_, ?_⟩
        · simp [cleanLoop, hd, hwp, hex, he]
        · have hs : isStale fs c ws = false := by simp [isStale, hex]
          simp [List.filter_cons, hs, hcnt]
      · have hexf : fs.exists? (c ++ [ws]) = false := by
          simpa using hex
        have hs : isStale fs c ws = true := by
          simp [isStale, hd, hexf]
        by_cases hrc : (runner "jj" ["workspace", "forget", ws] none).exitCode = 0
        · refine ⟨ws :: f, Effect.exec "jj" ["workspace", "forget", ws] none :: e, ?_, ?_⟩
          · simp [cleanLoop, hd, hwp, hexf, hrc, he, Except.map]
          · rw [countExecs_cons_exec, hcnt]
            simp [List.filter_cons, hs]
        · refine ⟨f,
            Effect.exec "jj" ["workspace", "forget", ws] none ::
              Effect.warn ("Failed to forget workspace \"" ++ ws ++ "\": " ++
                trimString (runner "jj" ["workspace", "forget", ws] none).stderr) :: e,
            ?_, ?_⟩
          · simp [cleanLoop, hd, hwp, hexf, hrc, he]
          · rw [countExecs_cons_exec, countExecs_cons_warn, hcnt]
            simp [List.filter_cons, hs]

/-- C7: non-zero exits of best-effort steps never fail the enclosing
operation.  (1) When `jj workspace forget` fails during `removeWorkspace`,
the operation still returns success, logs a warning, still deletes the
directory when it exists, and still reports completion — shown by its exact
trace.  (2) Every post-create command spawns exactly once regardless of the
exit codes of the previous ones, and (3) `newWorkspace` succeeds whatever
exit codes the post-create commands produce.  (4) `cleanWorkspaces` succeeds
and spawns one `forget` per stale workspace regardless of how many of those
`forget` calls fail. -/
theorem warn_and_continue_spec :
    (∀ (fs : FileSystem) (runner : Runner) (cwd : Path) (name : String) (wp : Path),
      normalizeWorkspaceName name ≠ DEFAULT_WORKSPACE_NAME →
      getWorkspacePath fs cwd (normalizeWorkspaceName name) none = .ok wp →
      (runner "jj" ["workspace", "forget", normalizeWorkspaceName name] none).exitCode ≠ 0 →
      removeWorkspace fs runner cwd name =
        (.ok (),
          [Effect.log ("Removing workspace \"" ++ normalizeWorkspaceName name ++ "\"..."),
           Effect.exec "jj" ["workspace", "forget", normalizeWorkspaceName name] none,
           Effect.warn ("Failed to run jj workspace forget: " ++
             (runner "jj" ["workspace", "forget", normalizeWorkspaceName name] none).stderr)] ++
          (if fs.exists? wp then [Effect.exec "rm" ["-rf", renderPath wp] none] else []) ++
          [Effect.log ("Removed workspace \"" ++ normalizeWorkspaceName name ++ "\"")])) ∧
    (∀ (runner : Runner) (wp : Path) (cmds : List String),
      countExecs (cmds.flatMap (runPostCreateCommand runner wp)) = cmds.length) ∧
    (∀ (fs : FileSystem) (runner : Runner) (cwd : Path) (config : Config)
      (name : String) (wp wdir root : Path),
      getWorkspacePath fs cwd (normalizeWorkspaceName name) none = .ok wp →
      fs.exists? wp = false →
      getWorkspacesDir fs cwd none = .ok wdir →
      getRepoRoot fs cwd = .ok root →
      (runner "jj" ["workspace", "add", "--name", normalizeWorkspaceName name,
        renderPath wp] none).exitCode = 0 →
      (newWorkspace fs runner cwd config name none).1 = .ok ()) ∧
    (∀ (fs : FileSystem) (runner : Runner) (cwd : Path) (c : Path),
      (runner "jj" ["workspace", "list"] none).exitCode = 0 →
      getWorkspacesDir fs cwd none = .ok c →
      (cleanWorkspaces fs runner cwd).1 = .ok () ∧
      countExecs (cleanWorkspaces fs runner cwd).2 =
        1 + ((parseJjWorkspaceList
          (runner "jj" ["workspace", "list"] none).stdout).filter (isStale fs c)).length) := by
  refine ⟨?_, ?_, ?_, ?_⟩
  · intro fs runner cwd name wp hname hwp hfail
    by_cases hex : fs.exists? wp = true <;>
      simp [removeWorkspace, hname, hwp, hfail, removeDir, hex]
  · intro runner wp cmds
    induction cmds with
    | nil => rfl
    | cons cmd rest ih =>
      rw [List.flatMap_cons, countExecs_append, countExecs_run_post_create, ih,
        List.length_cons]
      omega
  · intro fs runner cwd config name wp wdir root hwp hne hwd hroot hadd
    simp [newWorkspace, hwp, hne, hwd, hroot, hadd]
  · intro fs runner cwd c hlist hc
    obtain ⟨f, e, he, hcnt⟩ := cleanLoop_spec fs runner cwd c hc
      (parseJjWorkspaceList (runner "jj" ["workspace", "list"] none).stdout)
    have hg : getJjWorkspaceList runner =
        (.ok (parseJjWorkspaceList (runner "jj" ["workspace", "list"] none).stdout),
          [Effect.exec "jj" ["workspace", "list"] none]) := by
      simp [getJjWorkspaceList, hlist]
    by_cases hf : f = []
    · constructor
      · simp [cleanWorkspaces, hg, he, hf]
      · simp [cleanWorkspaces, hg, he, hf, countExecs_append, countExecs_cons_exec,
          countExecs_cons_log, countExecs_nil, hcnt]
        omega
    · constructor
      · simp [cleanWorkspaces, hg, he, hf]
      · simp [cleanWorkspaces, hg, he, hf, countExecs_append, countExecs_cons_exec,
          countExecs_cons_log, countExecs_nil, countExecs_indent_logs, hcnt]
        omega

/-- C7 witness: the four behaviours at concrete inputs — a failing `forget`
during remove still deletes the directory and succeeds; two post-create
commands spawn twice; `newWorkspace` succeeds although its post-create
command `boom` exits non-zero; `cleanWorkspaces` succeeds with one `forget`
spawned per stale workspace although one of them fails. -/
theorem warn_and_continue_spec_witness :
    removeWorkspace fsExisting runnerForgetFails ["home", "user", "my-repo"] "feature" =
      (.ok (),
        [Effect.log "Removing workspace \"feature\"...",
         Effect.exec "jj" ["workspace", "forget", "feature"] none,
         Effect.warn "Failed to run jj workspace forget: boom",
         Effect.exec "rm" ["-rf", "/home/user/my-repo__ws/feature"] none,
         Effect.log "Removed workspace \"feature\""]) ∧
    countExecs (["npm install", "bun test"].flatMap
      (runPostCreateCommand runnerZero ["w"])) = 2 ∧
    (newWorkspace fsScenario
      (fun cmd _ _ => if cmd == "boom" then ⟨"", "bad", 1⟩ else ⟨"", "", 0⟩)
      ["home", "user", "my-repo"] ⟨[], ["boom"], none⟩ "feature" none).1 = .ok () ∧
    (cleanWorkspaces fsScenario runnerClean ["home", "user", "my-repo"]).1 = .ok () ∧
    countExecs (cleanWorkspaces fsScenario runnerClean ["home", "user", "my-repo"]).2 = 3 := by
  refine ⟨?_, ?_, ?_, ?_, ?_⟩
  · exact warn_and_continue_spec.1 fsExisting runnerForgetFails ["home", "user", "my-repo"]
      "feature" ["home", "user", "my-repo__ws", "feature"] (by decide) (by rfl) (by decide)
  · exact warn_and_continue_spec.2.1 runnerZero ["w"] ["npm install", "bun test"]
  · exact warn_and_continue_spec.2.2.1 fsScenario
      (fun cmd _ _ => if cmd == "boom" then ⟨"", "bad", 1⟩ else ⟨"", "", 0⟩)
      ["home", "user", "my-repo"] ⟨[], ["boom"], none⟩ "feature"
      ["home", "user", "my-repo__ws", "feature"] ["home", "user", "my-repo__ws"]
      ["home", "user", "my-repo"] (by rfl) (by rfl) (by rfl) (by rfl) (by decide)
  · exact (warn_and_continue_spec.2.2.2 fsScenario runnerClean ["home", "user", "my-repo"]
      ["home", "user", "my-repo__ws"] (by decide) (by rfl)).1
  · exact (warn_and_continue_spec.2.2.2 fsScenario runnerClean ["home", "user", "my-repo"]
      ["home", "user", "my-repo__ws"] (by decide) (by rfl)).2

end Jw
